import Mathlib

/-!
Verification of the Axis server core (internal/server/server.go, the web
status-cycle hook, and the workspace registry model) against its
natural-language specification.  The Go code is shallowly embedded: the
mutable server fields become an explicit `ServerState`, handlers become
functions from state (plus the provider's fetch result and the current
time) to state together with the events they broadcast, and the SQLite
durable store — whose package is not part of the provided sources — is
modelled from the spec as a key-by-key mirror (`dbMode`, `dbStatuses`).
-/

namespace Axis

/-- Go `workspace.RegistryItem`: unified item structure (internal/workspace).
`type` is one of `"keep"`, `"doc"`, `"sheet"`. -/
structure RegistryItem where
  id : String
  type : String
  title : String
  snippet : String
  status : String
deriving DecidableEq, Repr

/-- Events broadcast over SSE: an `SSEMessage` without an `Event` field is a
registry snapshot; `tick`, `status` and `automation` are the typed kinds. -/
inductive Event where
  | snapshot (items : List RegistryItem)
  | tick (remaining : Int)
  | statusChanged (id status title : String)
  | automation (state task errMsg : String)
deriving DecidableEq, Repr

/-- Association-list lookup for the Go `map[string]string` tables. -/
def getKey (m : List (String × String)) (k : String) : Option String :=
  match m with
  | [] => none
  | (k', v) :: rest => if k' = k then some v else getKey rest k

/-- Association-list update: `m[k] = v` on a Go map. -/
def setKey (m : List (String × String)) (k v : String) : List (String × String) :=
  match m with
  | [] => [(k, v)]
  | (k', v') :: rest => if k' = k then (k, v) :: rest else (k', v') :: setKey rest k v

/-- Go `allowedStatuses`: the seven recognized lifecycle values (server.go). -/
def allowedStatuses (s : String) : Bool :=
  s == "Pending" || s == "Execute" || s == "Active" || s == "Blocked" ||
  s == "Review" || s == "Complete" || s == "Error"

/-- Constant `cacheTTL = 5 * time.Minute`, in seconds. -/
def cacheTTL : Nat := 5 * 60

/-- Constant `autoRefreshTicks = 60`. -/
def autoRefreshTicks : Int := 60

/-- The server's mutable fields relevant to the specification, plus the
durable store.  `mode`/`statuses` live under `modeMu`; `cacheItems` and
`cacheExpiresAt` are the `RegistryCache`; `dbMode`/`dbStatuses` embed the
SQLite mirror.  Modelled from the spec: the durable store (package
`internal/database`, absent from the provided sources) exposes
`getMode/setMode` and `getAllStatuses/setStatus` — a key/value mirror
written key-by-key, with no delete operation used anywhere. -/
structure ServerState where
  mode : String
  statuses : List (String × String)
  cacheItems : List RegistryItem
  cacheExpiresAt : Nat
  dbMode : Option String
  dbStatuses : List (String × String)
deriving DecidableEq, Repr

/-- The fresh server produced by `NewServer` before `loadState` runs. -/
def initServerState : ServerState :=
  { mode := "AUTO", statuses := [], cacheItems := [], cacheExpiresAt := 0,
    dbMode := none, dbStatuses := [] }

/-- Go `triggerStateSnapshot`: copies mode and the status table under the read
lock, then persists the mode and each status key-by-key through the durable
store (`db.SetMode`, `db.SetStatus`); write failures are logged and ignored. -/
def triggerStateSnapshot (st : ServerState) : ServerState :=
  { st with
    dbMode := some st.mode
    dbStatuses := st.statuses.foldl (fun m p => setKey m p.1 p.2) st.dbStatuses }

/-- The `enrichItems` loop body for one item: recorded status wins; a `keep` item
without a record is decorated `Pending`; other kinds are left as fetched. -/
def enrichOne (st : ServerState) (item : RegistryItem) : RegistryItem :=
  match getKey st.statuses item.id with
  | some s => { item with status := s }
  | none => if item.type == "keep" then { item with status := "Pending" } else item

/-- Go `enrichItems`: decorates a fetched item list with current statuses. -/
def enrichItems (st : ServerState) (items : List RegistryItem) : List RegistryItem :=
  items.map (enrichOne st)

/-- Go `getItemTitle`: linear scan of the cached items; `""` when absent. -/
def getItemTitle (st : ServerState) (id : String) : String :=
  match st.cacheItems.find? (fun item => item.id == id) with
  | some item => item.title
  | none => ""

/-- One iteration of the `backfillKeepStatuses` loop: non-keep items and
ids that already have a record are skipped; otherwise the id is recorded
`Pending` and the item collected as newly defaulted. -/
def backfillStep (acc : List (String × String) × List RegistryItem)
    (item : RegistryItem) : List (String × String) × List RegistryItem :=
  if item.type ≠ "keep" then acc
  else if (getKey acc.1 item.id).isSome then acc
  else (setKey acc.1 item.id "Pending", acc.2 ++ [item])

/-- Go `backfillKeepStatuses`: walks the fetched items in order; every `keep`
item without a status record gets `Pending` and is collected for a
`statusChanged` broadcast.  Returns the updated state, the broadcasts, and
the `needSnapshot` flag (true when anything was added). -/
def backfillKeepStatuses (items : List RegistryItem) (st : ServerState) :
    ServerState × List Event × Bool :=
  let acc := items.foldl backfillStep (st.statuses, [])
  ({ st with statuses := acc.1 },
   acc.2.map (fun item => Event.statusChanged item.id "Pending" item.title),
   !acc.2.isEmpty)

/-- Go `cleanupStaleStatuses`: deletes every status record whose id is not the
id of a `keep` item in the fetched list; `needSnapshot` is true when at
least one record was deleted.  This is the only deletion site for status
records in the server. -/
def cleanupStaleStatuses (items : List RegistryItem) (st : ServerState) :
    ServerState × Bool :=
  let isLiveKeep := fun (id : String) =>
    items.any (fun item => item.type == "keep" && item.id == id)
  let kept := st.statuses.filter (fun p => isLiveKeep p.1)
  ({ st with statuses := kept }, kept.length ≠ st.statuses.length)

/-- Everything a call to `refreshRegistryCache` produces.  The Go function
has signature `func (s *Server) refreshRegistryCache()` — it returns no
value, so `ret`, the value handed back to the caller, is `none` on every
path. -/
structure RefreshOut where
  state : ServerState
  events : List Event
  logs : List String
  ret : Option String
deriving DecidableEq, Repr

/-- Go `refreshRegistryCache`: asks the Provider (`ws.ListRegistryItems`) for
the full item list.  On failure it logs `workspace fetch failed` and
returns, touching nothing.  On success it backfills `Pending` records for
new keep notes, cleans up stale records, swaps the cached items and
advances `expiresAt` to `now + cacheTTL` under the cache lock, and — when
reconcile changed the table — triggers a durable state snapshot.
The provider call's outcome is passed in as `fetch`. -/
def refreshRegistryCache (fetch : Except String (List RegistryItem))
    (now : Nat) (st : ServerState) : RefreshOut :=
  match fetch with
  | Except.error e =>
    { state := st, events := [], logs := ["workspace fetch failed: " ++ e], ret := none }
  | Except.ok items =>
    let b := backfillKeepStatuses items st
    let c := cleanupStaleStatuses items b.1
    let st3 := { c.1 with cacheItems := items, cacheExpiresAt := now + cacheTTL }
    let st4 := if b.2.2 || c.2 then triggerStateSnapshot st3 else st3
    { state := st4, events := b.2.1, logs := ["cache refreshed"], ret := none }

/-- Go `broadcastRegistry`: reads the cached items (ignoring freshness); if the
list is empty it refreshes first (re-asking the Provider), then publishes
one snapshot event with the enriched current items.  The embedded refresh's
own `statusChanged` broadcasts precede the snapshot. -/
def broadcastRegistry (fetch : Except String (List RegistryItem))
    (now : Nat) (st : ServerState) : ServerState × List Event :=
  if st.cacheItems.isEmpty then
    let out := refreshRegistryCache fetch now st
    (out.state,
     out.events ++ [Event.snapshot (enrichItems out.state out.state.cacheItems)])
  else
    (st, [Event.snapshot (enrichItems st st.cacheItems)])

/-- One iteration of `runPoller`'s ticker loop: sample the mode under the
read lock; in `AUTO` decrement the countdown, broadcast a tick with the new
value, and at zero refresh, broadcast the registry and reset the countdown;
in any other mode just reset the countdown.  Result:
(new state, new countdown, events published this tick). -/
def pollerTick (fetch : Except String (List RegistryItem)) (now : Nat)
    (st : ServerState) (remaining : Int) : ServerState × Int × List Event :=
  if st.mode == "AUTO" then
    let r := remaining - 1
    if r ≤ 0 then
      let out := refreshRegistryCache fetch now st
      let b := broadcastRegistry fetch now out.state
      (b.1, autoRefreshTicks, Event.tick r :: (out.events ++ b.2))
    else
      (st, r, [Event.tick r])
  else
    (st, autoRefreshTicks, [])

/-- Outcome of an HTTP handler: final state, broadcasts, HTTP status code. -/
structure HandlerOut where
  state : ServerState
  events : List Event
  httpCode : Nat
deriving DecidableEq, Repr

/-- Go `handleStatus` (the `/api/status` endpoint): rejects empty id or empty
status, rejects a status outside `allowedStatuses` (400, no state change);
otherwise overwrites the record, broadcasts `statusChanged` only when the
cached title of the id is non-empty, persists a durable snapshot, and
broadcasts the registry before returning 200. -/
def handleStatus (fetch : Except String (List RegistryItem)) (now : Nat)
    (id status : String) (st : ServerState) : HandlerOut :=
  if id = "" ∨ status = "" then
    { state := st, events := [], httpCode := 400 }
  else if !allowedStatuses status then
    { state := st, events := [], httpCode := 400 }
  else
    let st1 := { st with statuses := setKey st.statuses id status }
    let title := getItemTitle st1 id
    let evs1 := if title ≠ "" then [Event.statusChanged id status title] else []
    let st2 := triggerStateSnapshot st1
    let b := broadcastRegistry fetch now st2
    { state := b.1, events := evs1 ++ b.2, httpCode := 200 }

/-- Go `handleMode`: empty `set` parameter reads the mode; anything other than
`AUTO`/`MANUAL` is rejected; otherwise the mode is updated and a durable
snapshot triggered. -/
def handleMode (newMode : String) (st : ServerState) : ServerState × Nat :=
  if newMode = "" then (st, 200)
  else if newMode ≠ "AUTO" ∧ newMode ≠ "MANUAL" then (st, 400)
  else (triggerStateSnapshot { st with mode := newMode }, 200)

/-- Go `ensureStatusDefault`: returns the recorded status, or records and
returns `defaultStatus`; the Bool reports whether a record was created. -/
def ensureStatusDefault (id defaultStatus : String) (st : ServerState) :
    String × Bool × ServerState :=
  match getKey st.statuses id with
  | some status => (status, false, st)
  | none => (defaultStatus, true, { st with statuses := setKey st.statuses id defaultStatus })

/-- Go `statusForKeep`: lazy default-on-read; a created record triggers a
durable snapshot. -/
def statusForKeep (id : String) (st : ServerState) : String × ServerState :=
  let r := ensureStatusDefault id "Pending" st
  (r.1, if r.2.1 then triggerStateSnapshot r.2.2 else r.2.2)

/-- Go `sanitizeNoteTitle`: trimmed title, or `Untitled` when blank. -/
def sanitizeNoteTitle (raw : String) : String :=
  let t := raw.trim
  if t = "" then "Untitled" else t

/-- The in-place replacement loop of `ensureKeepNoteCached`: replaces the
first cached item with the same id (the loop breaks after a hit) and
reports whether a replacement happened. -/
def replaceFirstById (items : List RegistryItem) (item : RegistryItem) :
    List RegistryItem × Bool :=
  match items with
  | [] => ([], false)
  | it :: rest =>
    if it.id == item.id then (item :: rest, true)
    else
      let r := replaceFirstById rest item
      (it :: r.1, r.2)

/-- Go `ensureKeepNoteCached`: upserts one keep note into the cached item list
(replace by id, else append), ensures a `Pending` status record exists,
advances `expiresAt` to `now + cacheTTL`, and triggers a durable snapshot
when a record was created.  Returns whether the item was newly added. -/
def ensureKeepNoteCached (now : Nat) (id title : String) (st : ServerState) :
    Bool × ServerState :=
  if id = "" then (false, st)
  else
    let r := ensureStatusDefault id "Pending" st
    let st1 := r.2.2
    let item : RegistryItem :=
      { id := id, type := "keep", title := sanitizeNoteTitle title,
        snippet := "Google Keep Note", status := r.1 }
    let rep := replaceFirstById st1.cacheItems item
    let items' := if rep.2 then rep.1 else st1.cacheItems ++ [item]
    let st2 := { st1 with cacheItems := items', cacheExpiresAt := now + cacheTTL }
    let st3 := if r.2.1 then triggerStateSnapshot st2 else st2
    (!rep.2, st3)

/-- Go `persistentState`: the legacy JSON layout `{mode, statuses}`.  A Go
`nil` statuses map is `none`. -/
structure PersistentState where
  mode : String
  statuses : Option (List (String × String))
deriving DecidableEq, Repr

/-- The working directory as the server sees it: the legacy state file
(`axis.state.json`) and its backup.  `none` — absent; `some none` —
present but failing to parse; `some (some ps)` — parses to `ps`. -/
structure FileSystem where
  legacy : Option (Option PersistentState)
  backup : Option (Option PersistentState)
deriving DecidableEq, Repr

/-- The status-value translation inside `migrateFromJSON`'s loop: the legacy
tokens `Keep`/`Delete` become `Pending`, then anything still outside
`allowedStatuses` becomes `Pending`. -/
def migrateStatusValue (status : String) : String :=
  let s1 := if status == "Keep" || status == "Delete" then "Pending" else status
  if allowedStatuses s1 then s1 else "Pending"

/-- Go `migrateFromJSON`: reads the legacy file; an unreadable or corrupt file
is logged and migration abandoned without renaming; otherwise a non-empty
mode and each translated status are written through the durable store and
the legacy file is renamed to the `.bak` backup. -/
def migrateFromJSON (fs : FileSystem) (st : ServerState) :
    FileSystem × ServerState × List String :=
  match fs.legacy with
  | none => (fs, st, ["failed to read legacy state file"])
  | some none => (fs, st, ["corrupt legacy state file"])
  | some (some ps) =>
    let st1 := if ps.mode ≠ "" then { st with dbMode := some ps.mode } else st
    let st2 :=
      match ps.statuses with
      | none => st1
      | some entries =>
        { st1 with dbStatuses :=
            entries.foldl (fun m p => setKey m p.1 (migrateStatusValue p.2)) st1.dbStatuses }
    ({ legacy := none, backup := fs.legacy }, st2,
     ["legacy state migrated and backed up"])

/-- Go `loadState`: migrate first when the legacy file exists, then load mode
and statuses from the durable store (absence of a stored mode leaves the
in-memory default).  The Bool reports whether a migration ran. -/
def loadState (fs : FileSystem) (st : ServerState) :
    FileSystem × ServerState × Bool :=
  if fs.legacy.isSome then
    let m := migrateFromJSON fs st
    let st' := m.2.1
    (m.1, { st' with mode := st'.dbMode.getD st'.mode, statuses := st'.dbStatuses }, true)
  else
    (fs, { st with mode := st.dbMode.getD st.mode, statuses := st.dbStatuses }, false)

/-- Subscriber queue capacity: `make(chan SSEMessage, 10)` in `handleEvents`. -/
def queueCapacity : Nat := 10

/-- The non-blocking enqueue (`select { case ch <- msg: default: }`): a full
queue drops the event, otherwise it is appended. -/
def offerEvent (q : List Event) (e : Event) : List Event :=
  if q.length < queueCapacity then q ++ [e] else q

/-- The broadcast loops (`broadcastTick`, `broadcastRegistry`, ...): offer
the event to every subscriber queue; the publisher is total — it never
waits on and never fails because of any queue. -/
def publish (subs : List (List Event)) (e : Event) : List (List Event) :=
  subs.map (fun q => offerEvent q e)

/-- Array `STATUS_CYCLE` from web/src/hooks/useRegistry.js. -/
def STATUS_CYCLE : List String :=
  ["Pending", "Execute", "Active", "Blocked", "Review", "Complete", "Error"]

/-- Function `nextStatus(current, direction)` from useRegistry.js: an unrecognized
current status gets index 0; `forward` steps `+1 mod 7`, anything else
steps `-1 mod 7` (written `(i - 1 + 7) % 7` in the source). -/
def nextStatus (current direction : String) : String :=
  let safeIdx :=
    match STATUS_CYCLE.indexOf? current with
    | some i => i
    | none => 0
  if direction == "forward" then
    (STATUS_CYCLE.get? ((safeIdx + 1) % STATUS_CYCLE.length)).getD ""
  else
    (STATUS_CYCLE.get? ((safeIdx + STATUS_CYCLE.length - 1) % STATUS_CYCLE.length)).getD ""

/-- Iterated forward cycling, `n` times. -/
def forwardIter (n : Nat) (s : String) : String :=
  match n with
  | 0 => s
  | Nat.succ m => forwardIter m (nextStatus s "forward")

/-- The embedded state-mutating server operations, used to state global
invariants over everything the model can do to a `ServerState`. -/
inductive ServerOp where
  | refreshOp (fetch : Except String (List RegistryItem)) (now : Nat)
  | noteDetailOp (now : Nat) (id title : String)
  | statusOp (fetch : Except String (List RegistryItem)) (now : Nat) (id status : String)
  | modeOp (newMode : String)
  | keepStatusOp (id : String)
  | tickOp (fetch : Except String (List RegistryItem)) (now : Nat) (remaining : Int)

/-- State transition of each embedded operation. -/
def applyOp (op : ServerOp) (st : ServerState) : ServerState :=
  match op with
  | ServerOp.refreshOp fetch now => (refreshRegistryCache fetch now st).state
  | ServerOp.noteDetailOp now id title => (ensureKeepNoteCached now id title st).2
  | ServerOp.statusOp fetch now id status => (handleStatus fetch now id status st).state
  | ServerOp.modeOp newMode => (handleMode newMode st).1
  | ServerOp.keepStatusOp id => (statusForKeep id st).2
  | ServerOp.tickOp fetch now remaining => (pollerTick fetch now st remaining).1

/-- The operations that are allowed to move `cacheExpiresAt`: a refresh
whose provider fetch succeeded (directly, or embedded in the status
handler's or the poller's registry broadcast), and the keep-note upsert
with a non-empty id — which advances the expiry without any provider
fetch at all. -/
def mayAdvanceExpiry (op : ServerOp) : Bool :=
  match op with
  | ServerOp.refreshOp fetch _ => fetch.toBool
  | ServerOp.noteDetailOp _ id _ => id ≠ ""
  | ServerOp.statusOp fetch _ _ _ => fetch.toBool
  | ServerOp.modeOp _ => false
  | ServerOp.keepStatusOp _ => false
  | ServerOp.tickOp fetch _ _ => fetch.toBool

/-- The `Event.statusChanged` filter for one id, to count the status broadcasts
a mutation produced for that id. -/
def isStatusChangedFor (id : String) (e : Event) : Bool :=
  match e with
  | Event.statusChanged i _ _ => i == id
  | _ => false

/-! ## Map lemmas -/

theorem getKey_setKey_self (m : List (String × String)) (k v : String) :
    getKey (setKey m k v) k = some v := by
  induction m with
  | nil =>
    show getKey [(k, v)] k = some v
    simp [getKey]
  | cons p rest ih =>
    obtain ⟨a, b⟩ := p
    by_cases ha : a = k
    · show getKey (if a = k then (k, v) :: rest else (a, b) :: setKey rest k v) k = some v
      rw [if_pos ha]
      simp [getKey]
    · show getKey (if a = k then (k, v) :: rest else (a, b) :: setKey rest k v) k = some v
      rw [if_neg ha]
      simp only [getKey, if_neg ha]
      exact ih

theorem getKey_setKey_ne (m : List (String × String)) (k v k' : String)
    (h : k' ≠ k) : getKey (setKey m k v) k' = getKey m k' := by
  have hk : ¬ k = k' := fun e => h e.symm
  induction m with
  | nil =>
    show getKey [(k, v)] k' = none
    simp only [getKey, if_neg hk]
  | cons p rest ih =>
    obtain ⟨a, b⟩ := p
    by_cases ha : a = k
    · show getKey (if a = k then (k, v) :: rest else (a, b) :: setKey rest k v) k' =
        getKey ((a, b) :: rest) k'
      rw [if_pos ha]
      simp only [getKey, if_neg hk, if_neg (show ¬ a = k' from fun e => hk (ha ▸ e))]
    · show getKey (if a = k then (k, v) :: rest else (a, b) :: setKey rest k v) k' =
        getKey ((a, b) :: rest) k'
      rw [if_neg ha]
      simp only [getKey]
      by_cases ha' : a = k'
      · rw [if_pos ha', if_pos ha']
      · rw [if_neg ha', if_neg ha', ih]

theorem mem_setKey (m : List (String × String)) (k v : String)
    (p : String × String) (h : p ∈ setKey m k v) : p ∈ m ∨ p = (k, v) := by
  induction m with
  | nil =>
    right
    exact List.mem_singleton.mp h
  | cons q rest ih =>
    obtain ⟨a, b⟩ := q
    by_cases ha : a = k
    · have e : setKey ((a, b) :: rest) k v = (k, v) :: rest := by
        show (if a = k then (k, v) :: rest else (a, b) :: setKey rest k v) = (k, v) :: rest
        rw [if_pos ha]
      rw [e] at h
      rcases List.mem_cons.mp h with h' | h'
      · right; exact h'
      · left; exact List.mem_cons_of_mem _ h'
    · have e : setKey ((a, b) :: rest) k v = (a, b) :: setKey rest k v := by
        show (if a = k then (k, v) :: rest else (a, b) :: setKey rest k v) =
          (a, b) :: setKey rest k v
        rw [if_neg ha]
      rw [e] at h
      rcases List.mem_cons.mp h with h' | h'
      · left; rw [h']; exact List.mem_cons_self _ _
      · rcases ih h' with h'' | h''
        · left; exact List.mem_cons_of_mem _ h''
        · right; exact h''

theorem mem_keys_setKey (m : List (String × String)) (k v a : String)
    (h : a ∈ (setKey m k v).map Prod.fst) : a ∈ m.map Prod.fst ∨ a = k := by
  simp only [List.mem_map] at h
  obtain ⟨p, hp, hpa⟩ := h
  rcases mem_setKey m k v p hp with h' | h'
  · left; exact List.mem_map.mpr ⟨p, h', hpa⟩
  · right; rw [← hpa, h']

theorem nodup_keys_setKey (m : List (String × String)) (k v : String) :
    (m.map Prod.fst).Nodup → ((setKey m k v).map Prod.fst).Nodup := by
  induction m with
  | nil =>
    intro _
    show ([(k, v)].map Prod.fst).Nodup
    simp
  | cons q rest ih =>
    intro h
    obtain ⟨a, b⟩ := q
    simp only [List.map_cons, List.nodup_cons] at h
    by_cases ha : a = k
    · have e : setKey ((a, b) :: rest) k v = (k, v) :: rest := by
        show (if a = k then (k, v) :: rest else (a, b) :: setKey rest k v) = (k, v) :: rest
        rw [if_pos ha]
      rw [e]
      simp only [List.map_cons, List.nodup_cons]
      refine ⟨fun hm => h.1 ?_, h.2⟩
      rw [ha]
      exact hm
    · have e : setKey ((a, b) :: rest) k v = (a, b) :: setKey rest k v := by
        show (if a = k then (k, v) :: rest else (a, b) :: setKey rest k v) =
          (a, b) :: setKey rest k v
        rw [if_neg ha]
      rw [e]
      simp only [List.map_cons, List.nodup_cons]
      refine ⟨fun hm => ?_, ih h.2⟩
      rcases mem_keys_setKey rest k v a hm with h' | h'
      · exact h.1 h'
      · exact ha h'

theorem getKey_eq_none_of_not_mem (m : List (String × String)) (k : String) :
    k ∉ m.map Prod.fst → getKey m k = none := by
  induction m with
  | nil => intro _; rfl
  | cons p rest ih =>
    intro h
    obtain ⟨a, b⟩ := p
    simp only [List.map_cons, List.mem_cons, not_or] at h
    simp only [getKey, if_neg (show ¬ a = k from fun e => h.1 e.symm)]
    exact ih h.2

theorem getKey_mem (m : List (String × String)) (k v : String) :
    getKey m k = some v → (k, v) ∈ m := by
  induction m with
  | nil => intro h; exact absurd h (by simp [getKey])
  | cons p rest ih =>
    intro h
    obtain ⟨a, b⟩ := p
    by_cases ha : a = k
    · simp only [getKey, if_pos ha] at h
      have hb := Option.some.inj h
      refine List.mem_cons.mpr (Or.inl ?_)
      rw [← ha, ← hb]
    · simp only [getKey, if_neg ha] at h
      exact List.mem_cons_of_mem _ (ih h)

/-- Under distinct keys, every entry with key `k` carries the looked-up
value. -/
theorem nodup_value_eq (m : List (String × String)) (k v : String) :
    (m.map Prod.fst).Nodup → getKey m k = some v →
    ∀ p ∈ m, p.1 = k → p.2 = v := by
  induction m with
  | nil => intro _ _ p hp; exact absurd hp (by simp)
  | cons q rest ih =>
    intro hnd h p hp hpk
    obtain ⟨a, b⟩ := q
    simp only [List.map_cons, List.nodup_cons] at hnd
    rcases List.mem_cons.mp hp with hp' | hp'
    · subst hp'
      simp only [getKey, if_pos hpk] at h
      exact Option.some.inj h
    · by_cases ha : a = k
      · exact absurd (List.mem_map.mpr ⟨p, hp', by rw [hpk, ← ha]⟩) hnd.1
      · simp only [getKey, if_neg ha] at h
        exact ih hnd.2 h p hp' hpk

/-- The key-by-key persistence fold leaves a key untouched when no written
entry has that key. -/
theorem foldl_setKey_preserve (l : List (String × String)) (k : String) :
    ∀ db, (∀ p ∈ l, p.1 ≠ k) →
      getKey (l.foldl (fun m p => setKey m p.1 p.2) db) k = getKey db k := by
  induction l with
  | nil => intro db _; rfl
  | cons p rest ih =>
    intro db h
    show getKey (List.foldl (fun m p => setKey m p.1 p.2) (setKey db p.1 p.2) rest) k =
      getKey db k
    rw [ih (setKey db p.1 p.2) fun q hq => h q (List.mem_cons_of_mem _ hq)]
    exact getKey_setKey_ne db p.1 p.2 k fun e => h p (List.mem_cons_self _ _) e.symm

/-- Persisting a table with distinct keys makes the durable mirror agree
with the table on every recorded key. -/
theorem foldl_setKey_getKey (l : List (String × String)) (k v : String) :
    ∀ db, (l.map Prod.fst).Nodup → getKey l k = some v →
      getKey (l.foldl (fun m p => setKey m p.1 p.2) db) k = some v := by
  induction l with
  | nil => intro db _ h; exact absurd h (by simp [getKey])
  | cons p rest ih =>
    intro db hnd h
    obtain ⟨a, b⟩ := p
    simp only [List.map_cons, List.nodup_cons] at hnd
    show getKey (List.foldl (fun m p => setKey m p.1 p.2) (setKey db a b) rest) k = some v
    by_cases ha : a = k
    · simp only [getKey, if_pos ha] at h
      have hb := Option.some.inj h
      rw [foldl_setKey_preserve rest k (setKey db a b)
        fun q hq e => hnd.1 (List.mem_map.mpr ⟨q, hq, by rw [e, ← ha]⟩)]
      rw [ha, hb]
      exact getKey_setKey_self db k v
    · simp only [getKey, if_neg ha] at h
      exact ih (setKey db a b) hnd.2 h

/-- Persisting any table all of whose `k`-entries carry value `v` cannot
change a durable mirror that already maps `k` to `v`. -/
theorem foldl_setKey_consistent (l : List (String × String)) (k v : String) :
    ∀ db, (∀ p ∈ l, p.1 = k → p.2 = v) → getKey db k = some v →
      getKey (l.foldl (fun m p => setKey m p.1 p.2) db) k = some v := by
  induction l with
  | nil => intro db _ hdb; exact hdb
  | cons p rest ih =>
    intro db hcons hdb
    obtain ⟨a, b⟩ := p
    show getKey (List.foldl (fun m p => setKey m p.1 p.2) (setKey db a b) rest) k = some v
    refine ih (setKey db a b) (fun q hq => hcons q (List.mem_cons_of_mem _ hq)) ?_
    by_cases ha : a = k
    · have hb : b = v := hcons (a, b) (List.mem_cons_self _ _) ha
      rw [ha, hb]
      exact getKey_setKey_self db k v
    · rw [getKey_setKey_ne db a b k fun e => ha e.symm]
      exact hdb

/-! ## Behaviour lemmas -/

theorem triggerStateSnapshot_cacheExpiresAt (st : ServerState) :
    (triggerStateSnapshot st).cacheExpiresAt = st.cacheExpiresAt := rfl

theorem triggerStateSnapshot_statuses (st : ServerState) :
    (triggerStateSnapshot st).statuses = st.statuses := rfl

theorem refreshRegistryCache_error (e : String) (now : Nat) (st : ServerState) :
    refreshRegistryCache (Except.error e) now st =
      { state := st, events := [], logs := ["workspace fetch failed: " ++ e],
        ret := none } := rfl

/-- A registry broadcast whose embedded refresh would fail leaves the state
exactly as it was. -/
theorem broadcastRegistry_error_state (e : String) (now : Nat) (st : ServerState) :
    (broadcastRegistry (Except.error e) now st).1 = st := by
  by_cases h : st.cacheItems.isEmpty = true <;>
    simp [broadcastRegistry, h, refreshRegistryCache]

/-- With a non-empty cache, a registry broadcast refreshes nothing: it only
publishes the enriched cached items. -/
theorem broadcastRegistry_nonempty (fetch : Except String (List RegistryItem))
    (now : Nat) (st : ServerState) (h : st.cacheItems ≠ []) :
    broadcastRegistry fetch now st =
      (st, [Event.snapshot (enrichItems st st.cacheItems)]) := by
  cases hc : st.cacheItems with
  | nil => exact absurd hc h
  | cons x xs => simp [broadcastRegistry, hc]

/-- The backfill loop preserves value-consistency at a recorded key: if
every entry for `id` carries `status` and `id` is recorded, the same holds
after backfilling any fetched items. -/
theorem backfillStep_foldl_consistent (items : List RegistryItem) (id status : String) :
    ∀ (acc : List (String × String) × List RegistryItem),
      (∀ p ∈ acc.1, p.1 = id → p.2 = status) →
      getKey acc.1 id = some status →
      (∀ p ∈ (items.foldl backfillStep acc).1, p.1 = id → p.2 = status) ∧
      getKey (items.foldl backfillStep acc).1 id = some status := by
  induction items with
  | nil => intro acc hP hg; exact ⟨hP, hg⟩
  | cons item rest ih =>
    intro acc hP hg
    have hstep : (∀ p ∈ (backfillStep acc item).1, p.1 = id → p.2 = status) ∧
        getKey (backfillStep acc item).1 id = some status := by
      by_cases ht : item.type ≠ "keep"
      · simp only [backfillStep, if_pos ht]
        exact ⟨hP, hg⟩
      · by_cases hs : (getKey acc.1 item.id).isSome
        · simp only [backfillStep, if_neg ht, if_pos hs]
          exact ⟨hP, hg⟩
        · simp only [backfillStep, if_neg ht, if_neg hs]
          have hne : item.id ≠ id := by
            intro e
            rw [e, hg] at hs
            exact hs rfl
          constructor
          · intro p hp hpk
            rcases mem_setKey acc.1 item.id "Pending" p hp with h' | h'
            · exact hP p h' hpk
            · exfalso
              rw [h'] at hpk
              exact hne hpk
          · rw [getKey_setKey_ne acc.1 item.id "Pending" id fun e => hne e.symm]
            exact hg
    rw [List.foldl_cons]
    exact ih (backfillStep acc item) hstep.1 hstep.2

/-- A successful refresh can only rewrite the durable mirror with entries
from its reconciled table; a durable key all of whose table entries carry
the recorded value therefore keeps that value — in particular a key the
reconcile step deleted keeps its old durable value. -/
theorem refresh_preserves_db_key (items : List RegistryItem) (now : Nat)
    (st : ServerState) (id status : String)
    (hP : ∀ p ∈ st.statuses, p.1 = id → p.2 = status)
    (hg : getKey st.statuses id = some status)
    (hdb : getKey st.dbStatuses id = some status) :
    getKey (refreshRegistryCache (Except.ok items) now st).state.dbStatuses id =
      some status := by
  have hbf := backfillStep_foldl_consistent items id status (st.statuses, []) hP hg
  simp only [refreshRegistryCache, backfillKeepStatuses, cleanupStaleStatuses,
    triggerStateSnapshot]
  split
  · refine foldl_setKey_consistent _ id status _ ?_ hdb
    intro p hp hpk
    exact hbf.1 p (List.mem_filter.mp hp).1 hpk
  · exact hdb

/-- Full characterization of an accepted `/api/status` request: it returns
200, the durable mirror records the new status whatever the cache or the
provider would have done, and with a non-empty cache the handler's result
is exactly: record overwritten, `statusChanged` broadcast gated on a
non-empty cached title, durable snapshot, registry snapshot broadcast. -/
theorem handleStatus_accept (fetch : Except String (List RegistryItem)) (now : Nat)
    (id status : String) (st : ServerState)
    (hid : id ≠ "") (hstat : allowedStatuses status = true)
    (hnd : (st.statuses.map Prod.fst).Nodup) :
    (handleStatus fetch now id status st).httpCode = 200 ∧
    getKey (handleStatus fetch now id status st).state.dbStatuses id = some status ∧
    (st.cacheItems ≠ [] →
      handleStatus fetch now id status st =
        { state :=
            triggerStateSnapshot { st with statuses := setKey st.statuses id status },
          events :=
            (if getItemTitle st id ≠ "" then
              [Event.statusChanged id status (getItemTitle st id)] else []) ++
            [Event.snapshot (enrichItems
              (triggerStateSnapshot { st with statuses := setKey st.statuses id status })
              st.cacheItems)],
          httpCode := 200 }) := by
  have hcond : ¬ (id = "" ∨ status = "") := by
    rintro (h | h)
    · exact hid h
    · rw [h] at hstat
      exact absurd hstat (by decide)
  have hstat' : ¬ (!allowedStatuses status) = true := by
    rw [hstat]
    decide
  have hnd1 : ((setKey st.statuses id status).map Prod.fst).Nodup :=
    nodup_keys_setKey st.statuses id status hnd
  have hg1 : getKey (setKey st.statuses id status) id = some status :=
    getKey_setKey_self st.statuses id status
  have hdb2 : getKey
      (triggerStateSnapshot { st with statuses := setKey st.statuses id status
        }).dbStatuses id = some status :=
    foldl_setKey_getKey (setKey st.statuses id status) id status st.dbStatuses hnd1 hg1
  refine ⟨?_, ?_, ?_⟩
  · simp only [handleStatus, if_neg hcond, if_neg hstat']
  · simp only [handleStatus, if_neg hcond, if_neg hstat']
    match fetch with
    | Except.error e =>
      rw [broadcastRegistry_error_state]
      exact hdb2
    | Except.ok items =>
      by_cases hempty : st.cacheItems = []
      · have hisE : (triggerStateSnapshot { st with
            statuses := setKey st.statuses id status }).cacheItems.isEmpty = true := by
          show st.cacheItems.isEmpty = true
          rw [hempty]
          rfl
        rw [broadcastRegistry, if_pos hisE]
        refine refresh_preserves_db_key items now _ id status ?_ hg1 hdb2
        exact nodup_value_eq (setKey st.statuses id status) id status hnd1 hg1
      · have hne' : (triggerStateSnapshot { st with
            statuses := setKey st.statuses id status }).cacheItems ≠ [] := hempty
        rw [broadcastRegistry_nonempty (Except.ok items) now _ hne']
        exact hdb2
  · intro hne
    have hne' : (triggerStateSnapshot { st with
        statuses := setKey st.statuses id status }).cacheItems ≠ [] := hne
    simp only [handleStatus, if_neg hcond, if_neg hstat']
    rw [broadcastRegistry_nonempty fetch now _ hne']
    rfl

/-- A populated server state used as the concrete input for C1. -/
def stC1 : ServerState :=
  { mode := "AUTO", statuses := [("n1", "Active")],
    cacheItems := [{ id := "n1", type := "keep", title := "Note One",
                     snippet := "s", status := "" }],
    cacheExpiresAt := 77, dbMode := some "AUTO", dbStatuses := [("n1", "Active")] }

/-- A server state with a live expiry used as the concrete input for C2. -/
def stC2 : ServerState :=
  { mode := "AUTO", statuses := [], cacheItems := [], cacheExpiresAt := 100,
    dbMode := some "AUTO", dbStatuses := [] }

/-- C1 counterexample: the Go `refreshRegistryCache` has no return value.
At a concrete failing fetch it leaves the state untouched and logs, but the
value handed back to the caller is `none` — not the error — so the claim
that the error is returned to the caller is false. -/
theorem refresh_failure_returns_nothing :
    (refreshRegistryCache (Except.error "boom") 50 stC1).state = stC1 ∧
    (refreshRegistryCache (Except.error "boom") 50 stC1).logs =
      ["workspace fetch failed: boom"] ∧
    (refreshRegistryCache (Except.error "boom") 50 stC1).ret = none ∧
    (refreshRegistryCache (Except.error "boom") 50 stC1).ret ≠ some "boom" := by
  decide

/-- C1 (amended): a refresh whose provider fetch fails leaves the whole
state — cached items, `expiresAt`, statuses, durable mirror — untouched,
produces no broadcasts, logs the failure, and returns nothing to its caller
(the error is swallowed after logging). -/
theorem refresh_failure_preserves_state (e : String) (now : Nat) (st : ServerState) :
    (refreshRegistryCache (Except.error e) now st).state = st ∧
    (refreshRegistryCache (Except.error e) now st).events = [] ∧
    (refreshRegistryCache (Except.error e) now st).logs =
      ["workspace fetch failed: " ++ e] ∧
    (refreshRegistryCache (Except.error e) now st).ret = none :=
  ⟨rfl, rfl, rfl, rfl⟩

/-- C2 counterexample: `ensureKeepNoteCached` — the note-detail upsert,
which performs no Provider fetch at all (its signature takes none) —
advances `cacheExpiresAt` from 100 to `200 + cacheTTL = 500` at a concrete
input, so a successful refresh is not the only operation that moves
`expiresAt` forward. -/
theorem upsert_advances_expiry_without_refresh :
    stC2.cacheExpiresAt = 100 ∧
    (applyOp (ServerOp.noteDetailOp 200 "n1" "Fresh Note") stC2).cacheExpiresAt = 500 ∧
    stC2.cacheExpiresAt <
      (applyOp (ServerOp.noteDetailOp 200 "n1" "Fresh Note") stC2).cacheExpiresAt := by
  decide

/-- C2 (amended): across every embedded operation, `cacheExpiresAt` can
change only under an operation that either performs a successful provider
fetch (a refresh, directly or embedded in the status handler or the
poller) or is the keep-note upsert with a non-empty id; and a failed
refresh leaves the previous snapshot, its expiry included, untouched. -/
theorem expiry_advances_only_by_refresh_or_upsert :
    ∀ (op : ServerOp) (st : ServerState),
      ((applyOp op st).cacheExpiresAt ≠ st.cacheExpiresAt →
        mayAdvanceExpiry op = true) ∧
      (∀ e now, (refreshRegistryCache (Except.error e) now st).state = st) := by
  intro op st
  refine ⟨fun hne => ?_, fun e now => rfl⟩
  match op with
  | ServerOp.refreshOp fetch now =>
    match fetch with
    | Except.error e => exact absurd rfl hne
    | Except.ok items => rfl
  | ServerOp.noteDetailOp now id title =>
    by_cases hid : id = ""
    · exfalso
      apply hne
      simp [applyOp, ensureKeepNoteCached, hid]
    · simp [mayAdvanceExpiry, hid]
  | ServerOp.statusOp fetch now id status =>
    by_cases h1 : id = "" ∨ status = ""
    · exfalso
      apply hne
      simp [applyOp, handleStatus, h1]
    · cases h2 : allowedStatuses status with
      | false =>
        exfalso
        apply hne
        simp [applyOp, handleStatus, h1, h2]
      | true =>
        match fetch with
        | Except.ok items => rfl
        | Except.error e =>
          exfalso
          apply hne
          simp [applyOp, handleStatus, h1, h2, broadcastRegistry_error_state,
            triggerStateSnapshot]
  | ServerOp.modeOp newMode =>
    exfalso
    apply hne
    simp only [applyOp, handleMode]
    split_ifs <;> rfl
  | ServerOp.keepStatusOp id =>
    exfalso
    apply hne
    simp only [applyOp, statusForKeep, ensureStatusDefault]
    cases hgk : getKey st.statuses id <;> simp [triggerStateSnapshot]
  | ServerOp.tickOp fetch now remaining =>
    cases hm : st.mode == "AUTO" with
    | false =>
      exfalso
      apply hne
      simp [applyOp, pollerTick, hm]
    | true =>
      by_cases hr : remaining - 1 ≤ 0
      · match fetch with
        | Except.ok items => rfl
        | Except.error e =>
          exfalso
          apply hne
          simp [applyOp, pollerTick, hm, hr, refreshRegistryCache,
            broadcastRegistry_error_state]
      · exfalso
        apply hne
        simp [applyOp, pollerTick, hm, hr]

/-- Witness for C2 (amended) at a concrete successful refresh from the
fresh server state. -/
theorem expiry_advances_only_by_refresh_or_upsert_witness :
    (applyOp (ServerOp.refreshOp (Except.ok []) 5) initServerState).cacheExpiresAt ≠
      initServerState.cacheExpiresAt ∧
    mayAdvanceExpiry (ServerOp.refreshOp (Except.ok []) 5) = true :=
  ⟨by decide,
   (expiry_advances_only_by_refresh_or_upsert
      (ServerOp.refreshOp (Except.ok []) 5) initServerState).1 (by decide)⟩

/-- Every registry broadcast publishes a snapshot event, whatever the
provider fetch would do. -/
theorem broadcastRegistry_snapshot_mem (fetch : Except String (List RegistryItem))
    (now : Nat) (st : ServerState) :
    ∃ its, Event.snapshot its ∈ (broadcastRegistry fetch now st).2 := by
  by_cases h : st.cacheItems.isEmpty = true
  · refine ⟨enrichItems (refreshRegistryCache fetch now st).state
      (refreshRegistryCache fetch now st).state.cacheItems, ?_⟩
    simp [broadcastRegistry, h]
  · refine ⟨enrichItems st st.cacheItems, ?_⟩
    simp [broadcastRegistry, h]

/-- C4: each one-second poller iteration samples the mode fresh: in
`MANUAL` it resets the countdown to `autoRefreshTicks` and publishes
nothing; in `AUTO` it decrements and publishes a tick carrying the new
remaining value, and once the counter reaches zero it runs the refresh
and — whether or not that refresh succeeded (`fetch` is universally
quantified) — publishes a snapshot event from whatever is then cached and
resets the countdown. -/
theorem pollerTick_mode_machine :
    ∀ (fetch : Except String (List RegistryItem)) (now : Nat) (st : ServerState)
      (remaining : Int),
      (st.mode = "MANUAL" →
        pollerTick fetch now st remaining = (st, autoRefreshTicks, [])) ∧
      (st.mode = "AUTO" → 0 < remaining - 1 →
        pollerTick fetch now st remaining =
          (st, remaining - 1, [Event.tick (remaining - 1)])) ∧
      (st.mode = "AUTO" → remaining - 1 ≤ 0 →
        (pollerTick fetch now st remaining).2.1 = autoRefreshTicks ∧
        (pollerTick fetch now st remaining).2.2.head? =
          some (Event.tick (remaining - 1)) ∧
        (pollerTick fetch now st remaining).1 =
          (broadcastRegistry fetch now
            (refreshRegistryCache fetch now st).state).1 ∧
        ∃ its, Event.snapshot its ∈ (pollerTick fetch now st remaining).2.2) := by
  intro fetch now st remaining
  refine ⟨?_, ?_, ?_⟩
  · intro hm
    have hb : (st.mode == "AUTO") = false := by rw [hm]; decide
    simp [pollerTick, hb]
  · intro hm hr
    have hb : (st.mode == "AUTO") = true := by rw [hm]; decide
    have hr' : ¬ remaining - 1 ≤ 0 := by omega
    simp [pollerTick, hb, hr']
  · intro hm hr
    have hb : (st.mode == "AUTO") = true := by rw [hm]; decide
    obtain ⟨its, hmem⟩ :=
      broadcastRegistry_snapshot_mem fetch now (refreshRegistryCache fetch now st).state
    refine ⟨?_, ?_, ?_, ⟨its, ?_⟩⟩ <;> simp [pollerTick, hb, hr]
    exact Or.inr hmem

/-- Witness for C4 at the zero tick of an `AUTO` server whose provider
fetch fails. -/
theorem pollerTick_mode_machine_witness :
    stC1.mode = "AUTO" ∧ (1 : Int) - 1 ≤ 0 ∧
    ((pollerTick (Except.error "down") 9 stC1 1).2.1 = autoRefreshTicks ∧
     (pollerTick (Except.error "down") 9 stC1 1).2.2.head? =
       some (Event.tick ((1 : Int) - 1)) ∧
     (pollerTick (Except.error "down") 9 stC1 1).1 =
       (broadcastRegistry (Except.error "down") 9
         (refreshRegistryCache (Except.error "down") 9 stC1).state).1 ∧
     ∃ its, Event.snapshot its ∈ (pollerTick (Except.error "down") 9 stC1 1).2.2) :=
  ⟨rfl, by decide,
   (pollerTick_mode_machine (Except.error "down") 9 stC1 1).2.2 rfl (by decide)⟩

/-- C9: a publish offers the event to every subscriber queue with a
non-blocking enqueue: the subscriber list keeps its shape, a queue at
capacity (10) misses the event unchanged, and every queue with space
receives it.  `publish` is a total function — it cannot block or fail the
publisher. -/
theorem publish_offers_every_queue :
    ∀ (subs : List (List Event)) (e : Event) (i : Nat) (q : List Event),
      subs.get? i = some q →
        (publish subs e).length = subs.length ∧
        (queueCapacity ≤ q.length → (publish subs e).get? i = some q) ∧
        (q.length < queueCapacity → (publish subs e).get? i = some (q ++ [e])) := by
  intro subs e i q h
  refine ⟨by simp [publish], ?_, ?_⟩
  · intro hfull
    rw [publish, List.get?_map, h]
    simp [offerEvent, Nat.not_lt.mpr hfull]
  · intro hspace
    rw [publish, List.get?_map, h]
    simp [offerEvent, hspace]

/-- A subscriber queue saturated at capacity. -/
def fullQueue : List Event := List.replicate 10 (Event.tick 0)

/-- Witness for C9: one saturated queue alongside one empty queue. -/
theorem publish_offers_every_queue_witness :
    ([fullQueue, []] : List (List Event)).get? 0 = some fullQueue ∧
    ((publish [fullQueue, []] (Event.tick 5)).length =
        ([fullQueue, []] : List (List Event)).length ∧
     (queueCapacity ≤ fullQueue.length →
       (publish [fullQueue, []] (Event.tick 5)).get? 0 = some fullQueue) ∧
     (fullQueue.length < queueCapacity →
       (publish [fullQueue, []] (Event.tick 5)).get? 0 =
         some (fullQueue ++ [Event.tick 5]))) :=
  ⟨rfl, publish_offers_every_queue [fullQueue, []] (Event.tick 5) 0 fullQueue rfl⟩

/-- A keep item the provider keeps returning. -/
def itemA : RegistryItem :=
  { id := "a", type := "keep", title := "Alpha", snippet := "sa", status := "" }

/-- C6: the status mutation endpoint rejects an empty id and rejects any
status outside the seven recognized values, changing neither the in-memory
table nor the durable store; an accepted request returns 200 having
overwritten the record (visible in memory whenever the handler's trailing
registry broadcast does not re-reconcile an empty cache) and written it
durably before returning. -/
theorem handleStatus_validation_and_persistence :
    ∀ (fetch : Except String (List RegistryItem)) (now : Nat) (id status : String)
      (st : ServerState),
      (id = "" → handleStatus fetch now id status st =
        { state := st, events := [], httpCode := 400 }) ∧
      (allowedStatuses status = false → handleStatus fetch now id status st =
        { state := st, events := [], httpCode := 400 }) ∧
      (id ≠ "" → allowedStatuses status = true →
        (st.statuses.map Prod.fst).Nodup →
        (handleStatus fetch now id status st).httpCode = 200 ∧
        getKey (handleStatus fetch now id status st).state.dbStatuses id =
          some status ∧
        (st.cacheItems ≠ [] →
          getKey (handleStatus fetch now id status st).state.statuses id =
            some status)) := by
  intro fetch now id status st
  refine ⟨?_, ?_, ?_⟩
  · intro h
    simp [handleStatus, h]
  · intro h
    by_cases hs : status = ""
    · simp [handleStatus, hs]
    · by_cases hid : id = ""
      · simp [handleStatus, hid]
      · simp [handleStatus, hid, hs, h]
  · intro h1 h2 h3
    obtain ⟨hc, hdbx, hfull⟩ := handleStatus_accept fetch now id status st h1 h2 h3
    refine ⟨hc, hdbx, fun hne => ?_⟩
    rw [hfull hne]
    exact getKey_setKey_self st.statuses id status

/-- Witness for C6 at a concrete accepted request against a populated
server. -/
theorem handleStatus_validation_and_persistence_witness :
    ("n1" : String) ≠ "" ∧ allowedStatuses "Execute" = true ∧
    (stC1.statuses.map Prod.fst).Nodup ∧
    ((handleStatus (Except.error "x") 0 "n1" "Execute" stC1).httpCode = 200 ∧
     getKey (handleStatus (Except.error "x") 0 "n1" "Execute" stC1).state.dbStatuses
       "n1" = some "Execute" ∧
     (stC1.cacheItems ≠ [] →
       getKey (handleStatus (Except.error "x") 0 "n1" "Execute" stC1).state.statuses
         "n1" = some "Execute")) :=
  ⟨by decide, by decide, by decide,
   (handleStatus_validation_and_persistence (Except.error "x") 0 "n1" "Execute"
      stC1).2.2 (by decide) (by decide) (by decide)⟩

/-- C10: an accepted status mutation always lands in the in-memory table
and the durable store, but its `statusChanged` broadcast is gated on the
id's cached title: with an empty looked-up title (id absent from the
snapshot, or cached with an empty title) no `statusChanged` event for that
id is published; with a non-empty title exactly one is, carrying it. -/
theorem handleStatus_title_gates_broadcast :
    ∀ (fetch : Except String (List RegistryItem)) (now : Nat) (id status : String)
      (st : ServerState),
      id ≠ "" → allowedStatuses status = true →
      (st.statuses.map Prod.fst).Nodup → st.cacheItems ≠ [] →
      getKey (handleStatus fetch now id status st).state.statuses id = some status ∧
      getKey (handleStatus fetch now id status st).state.dbStatuses id =
        some status ∧
      ((handleStatus fetch now id status st).events.filter (isStatusChangedFor id) =
        if getItemTitle st id = "" then []
        else [Event.statusChanged id status (getItemTitle st id)]) := by
  intro fetch now id status st h1 h2 h3 h4
  obtain ⟨hc, hdbx, hfull⟩ := handleStatus_accept fetch now id status st h1 h2 h3
  refine ⟨?_, hdbx, ?_⟩
  · rw [hfull h4]
    exact getKey_setKey_self st.statuses id status
  · rw [hfull h4]
    by_cases ht : getItemTitle st id = ""
    · simp [ht, isStatusChangedFor]
    · simp [ht, isStatusChangedFor]

/-- A server whose cache holds a note with an empty title and one with a
missing id, used as the concrete input for C10. -/
def stC10 : ServerState :=
  { mode := "AUTO", statuses := [],
    cacheItems := [{ id := "blank", type := "keep", title := "",
                     snippet := "s", status := "" }],
    cacheExpiresAt := 900, dbMode := some "AUTO", dbStatuses := [] }

/-- Witness for C10 at an id whose cached title is empty: recorded,
persisted, and no `statusChanged` event published. -/
theorem handleStatus_title_gates_broadcast_witness :
    ("blank" : String) ≠ "" ∧ allowedStatuses "Review" = true ∧
    (stC10.statuses.map Prod.fst).Nodup ∧ stC10.cacheItems ≠ [] ∧
    (getKey (handleStatus (Except.error "x") 0 "blank" "Review" stC10).state.statuses
       "blank" = some "Review" ∧
     getKey (handleStatus (Except.error "x") 0 "blank" "Review"
       stC10).state.dbStatuses "blank" = some "Review" ∧
     ((handleStatus (Except.error "x") 0 "blank" "Review" stC10).events.filter
         (isStatusChangedFor "blank") =
       if getItemTitle stC10 "blank" = "" then []
       else [Event.statusChanged "blank" "Review" (getItemTitle stC10 "blank")])) :=
  ⟨by decide, by decide, by decide, by decide,
   handleStatus_title_gates_broadcast (Except.error "x") 0 "blank" "Review" stC10
     (by decide) (by decide) (by decide) (by decide)⟩

/-- A cached document-kind item. -/
def docItem : RegistryItem :=
  { id := "d1", type := "doc", title := "Design Doc", snippet := "sd", status := "" }

/-- A server whose cache holds only that document, used for C7. -/
def stC7 : ServerState :=
  { mode := "MANUAL", statuses := [], cacheItems := [docItem],
    cacheExpiresAt := 1000, dbMode := some "MANUAL", dbStatuses := [] }

/-- C7 counterexample: the status mutation endpoint checks no item kind, so
a request naming the id of the cached document-kind item `d1` creates a
status record for it, in memory and durably — a reachable state in which a
non-note item has a status record. -/
theorem doc_item_gets_status_record :
    docItem.type = "doc" ∧
    getKey stC7.statuses "d1" = none ∧
    (handleStatus (Except.error "nofetch") 0 "d1" "Active" stC7).httpCode = 200 ∧
    getKey (handleStatus (Except.error "nofetch") 0 "d1" "Active"
      stC7).state.statuses "d1" = some "Active" ∧
    getKey (handleStatus (Except.error "nofetch") 0 "d1" "Active"
      stC7).state.dbStatuses "d1" = some "Active" := by
  decide

/-- The backfill loop creates a record only for the id of a fetched
keep-kind item. -/
theorem backfill_fold_new_keys (items : List RegistryItem) (id : String) :
    ∀ (acc : List (String × String) × List RegistryItem),
      getKey (items.foldl backfillStep acc).1 id ≠ getKey acc.1 id →
      ∃ item ∈ items, item.id = id ∧ item.type = "keep" := by
  induction items with
  | nil => intro acc h; exact absurd rfl h
  | cons item rest ih =>
    intro acc h
    rw [List.foldl_cons] at h
    by_cases hch : getKey (backfillStep acc item).1 id = getKey acc.1 id
    · have h' : getKey (rest.foldl backfillStep (backfillStep acc item)).1 id ≠
          getKey (backfillStep acc item).1 id := by
        rw [hch]
        exact h
      obtain ⟨it, hit, hi⟩ := ih (backfillStep acc item) h'
      exact ⟨it, List.mem_cons_of_mem _ hit, hi⟩
    · by_cases ht : item.type ≠ "keep"
      · exact absurd (by simp [backfillStep, ht]) hch
      · by_cases hs : (getKey acc.1 item.id).isSome
        · exact absurd (by simp [backfillStep, ht, hs]) hch
        · by_cases hidq : item.id = id
          · exact ⟨item, List.mem_cons_self _ _, hidq, not_not.mp ht⟩
          · exfalso
            apply hch
            simp only [backfillStep, if_neg ht, if_neg hs]
            exact getKey_setKey_ne acc.1 item.id "Pending" id fun e => hidq e.symm

/-- C7 (amended): refresh-driven defaulting and enrichment respect kind —
backfill creates records only for ids of fetched keep items, and a
non-keep item without a record is served undecorated — but the status
endpoint itself checks no kind: any accepted mutation records its id. -/
theorem status_records_kind_discipline :
    (∀ (items : List RegistryItem) (st : ServerState) (id : String),
      getKey (backfillKeepStatuses items st).1.statuses id ≠ getKey st.statuses id →
      ∃ item ∈ items, item.id = id ∧ item.type = "keep") ∧
    (∀ (st : ServerState) (item : RegistryItem),
      item.type ≠ "keep" → getKey st.statuses item.id = none →
      enrichOne st item = item) ∧
    (∀ (fetch : Except String (List RegistryItem)) (now : Nat) (id status : String)
      (st : ServerState),
      id ≠ "" → allowedStatuses status = true →
      (st.statuses.map Prod.fst).Nodup → st.cacheItems ≠ [] →
      getKey (handleStatus fetch now id status st).state.statuses id = some status) := by
  refine ⟨?_, ?_, ?_⟩
  · intro items st id h
    exact backfill_fold_new_keys items id (st.statuses, []) h
  · intro st item ht hg
    simp [enrichOne, hg, ht]
  · intro fetch now id status st h1 h2 h3 h4
    obtain ⟨hc, hdbx, hfull⟩ := handleStatus_accept fetch now id status st h1 h2 h3
    rw [hfull h4]
    exact getKey_setKey_self st.statuses id status

/-- Witness for C7 (amended): the backfill of one keep item changes only
that item's key. -/
theorem status_records_kind_discipline_witness :
    (getKey (backfillKeepStatuses [itemA] stC2).1.statuses "a" ≠
      getKey stC2.statuses "a") ∧
    ∃ item ∈ [itemA], item.id = "a" ∧ item.type = "keep" :=
  ⟨by decide, status_records_kind_discipline.1 [itemA] stC2 "a" (by decide)⟩

/-- The legacy state file of C8's scenario. -/
def legacyC8 : PersistentState :=
  { mode := "MANUAL", statuses := some [("x", "Keep"), ("y", "Bogus")] }

/-- A working directory holding only that legacy file. -/
def fsC8 : FileSystem := { legacy := some (some legacyC8), backup := none }

/-- C8: migrating `{"mode":"MANUAL","statuses":{"x":"Keep","y":"Bogus"}}`
yields durable mode `MANUAL` with `x` and `y` both `Pending` (every token
outside the seven recognized values, the legacy tokens included, maps to
`Pending`), the legacy file is renamed to the backup, and a second startup
in the same directory performs no migration and changes nothing. -/
theorem legacy_migration_normalizes :
    (∀ tok, allowedStatuses tok = false → migrateStatusValue tok = "Pending") ∧
    (migrateStatusValue "Keep" = "Pending" ∧
     migrateStatusValue "Delete" = "Pending" ∧
     (loadState fsC8 initServerState).2.2 = true ∧
     (loadState fsC8 initServerState).2.1.dbMode = some "MANUAL" ∧
     (loadState fsC8 initServerState).2.1.mode = "MANUAL" ∧
     getKey (loadState fsC8 initServerState).2.1.dbStatuses "x" = some "Pending" ∧
     getKey (loadState fsC8 initServerState).2.1.dbStatuses "y" = some "Pending" ∧
     (loadState fsC8 initServerState).1.legacy = none ∧
     (loadState fsC8 initServerState).1.backup = some (some legacyC8) ∧
     (loadState (loadState fsC8 initServerState).1
        (loadState fsC8 initServerState).2.1).2.2 = false ∧
     (loadState (loadState fsC8 initServerState).1
        (loadState fsC8 initServerState).2.1).2.1 =
       (loadState fsC8 initServerState).2.1 ∧
     (loadState (loadState fsC8 initServerState).1
        (loadState fsC8 initServerState).2.1).1 =
       (loadState fsC8 initServerState).1) := by
  refine ⟨?_, by decide⟩
  intro tok h
  by_cases hk : (tok == "Keep" || tok == "Delete") = true
  · simp only [migrateStatusValue, if_pos hk]
    decide
  · have hk' : (tok == "Keep" || tok == "Delete") = false := by
      revert hk
      cases tok == "Keep" || tok == "Delete" <;> simp
    simp [migrateStatusValue, hk', h]

/-- Witness for C8 at the unrecognized token `Bogus`. -/
theorem legacy_migration_normalizes_witness :
    allowedStatuses "Bogus" = false ∧ migrateStatusValue "Bogus" = "Pending" :=
  ⟨by decide, legacy_migration_normalizes.1 "Bogus" (by decide)⟩

/-- The pre-refresh state of C3's scenario: one recorded and persisted
status for id `c`, which the next fetch no longer contains. -/
def stC3 : ServerState :=
  { mode := "AUTO", statuses := [("c", "Active")],
    cacheItems := [{ id := "c", type := "keep", title := "Gamma",
                     snippet := "sc", status := "" }],
    cacheExpiresAt := 400, dbMode := some "AUTO", dbStatuses := [("c", "Active")] }

/-- C3 evaluated at the failing input: the successful refresh backfills
`a` with `Pending` and broadcasts it as newly defaulted, deletes the
record for the vanished id `c` from the in-memory table, and triggers the
durable snapshot — but that snapshot only re-writes surviving keys through
`setStatus`, so the durable store still maps `c` to `Active`: no durable
write reflecting the removal ever happens. -/
theorem cleanup_removal_not_persisted :
    getKey (refreshRegistryCache (Except.ok [itemA]) 1000 stC3).state.statuses "c" =
      none ∧
    getKey (refreshRegistryCache (Except.ok [itemA]) 1000 stC3).state.statuses "a" =
      some "Pending" ∧
    (refreshRegistryCache (Except.ok [itemA]) 1000 stC3).events =
      [Event.statusChanged "a" "Pending" "Alpha"] ∧
    getKey (refreshRegistryCache (Except.ok [itemA]) 1000 stC3).state.dbStatuses "a" =
      some "Pending" ∧
    getKey (refreshRegistryCache (Except.ok [itemA]) 1000 stC3).state.dbStatuses "c" =
      some "Active" := by
  decide

/-- C5: for every status `s` in the seven-element order
`[Pending, Execute, Active, Blocked, Review, Complete, Error]`,
`cycle(cycle(s, forward), back) = s` and `cycle(cycle(s, back), forward) = s`,
and applying `cycle(·, forward)` seven times starting from `s` returns `s`
(a closed cycle of length 7). -/
theorem nextStatus_cycle_roundtrip :
    ∀ s ∈ STATUS_CYCLE,
      nextStatus (nextStatus s "forward") "back" = s ∧
      nextStatus (nextStatus s "back") "forward" = s ∧
      forwardIter 7 s = s := by
  decide

/-- Witness for C5 at the concrete status `Pending`. -/
theorem nextStatus_cycle_roundtrip_witness :
    "Pending" ∈ STATUS_CYCLE ∧
      (nextStatus (nextStatus "Pending" "forward") "back" = "Pending" ∧
       nextStatus (nextStatus "Pending" "back") "forward" = "Pending" ∧
       forwardIter 7 "Pending" = "Pending") :=
  ⟨by decide, nextStatus_cycle_roundtrip "Pending" (by decide)⟩

end Axis
